import Mathlib

/-!
Verification development for the CourseConnect prerequisite and schedule
resolution core.

The definitions below are a shallow embedding of the code in
`src/utils/sparql/sparql_tool.py`, `src/utils/sparql/sparql_query_builder.py`,
`src/utils/sparql/sparql_prereq_tool.py`, `src/agents/prerequisite_agent.py`,
`src/agents/scheduler_agent.py` and `src/agents/eligibility_agent.py`.

The RDF triple store is modelled by a typed `Store` that carries exactly the
triples the queries of `sparql_query_builder.py` touch: course records
(`schema:name` / `schema:courseCode` attached to a course URI), prerequisite
edges (`ex:hasPrerequisite` between course URIs), and offerings
(`ex:offeredIn` / `ex:semester` / `ex:hasComponent` / `ex:hasTimeSlot` /
`ex:dayOfWeek` / `ex:startTime` / `ex:endTime`).  Each SPARQL query built by
`CourseQueryBuilder` is embedded as the Lean function computing the bag of
rows the query returns on such a store; times of day are modelled as minutes
from midnight (`Nat`), which is order-isomorphic to the `xsd:time` literals
the query compares with `<`.

`networkx` is modelled by `topoSort` (Kahn layering, as in
`networkx.algorithms.dag.topological_generations`, which
`nx.topological_sort` delegates to); within one layer nodes are kept in node
insertion order.  On a cyclic graph `list(nx.topological_sort(G))` raises
`NetworkXUnfeasible` with the fixed message
"Graph contains a cycle or graph changed during iteration"; this is modelled
by `Except.error cycleMsg`.  Python exceptions in general are modelled by
`Except.error`.
-/

/-- The `ex:` namespace of the knowledge graph: `EX c` is the URI that
`rdflib.Namespace("http://example.org/")[c]` denotes. -/
def EX (s : String) : String := "http://example.org/" ++ s

/-- Models Python `course_code.replace(" ", "")`: replacing every single-space
occurrence by the empty string removes exactly the space characters. -/
def stripSpaces (s : String) : String := ⟨s.data.filter (fun c => !(c == ' '))⟩

/-- Split a character list at every occurrence of `sep` (Python `str.split`). -/
def splitChar (sep : Char) : List Char → List (List Char)
  | [] => [[]]
  | c :: cs =>
    let r := splitChar sep cs
    if c = sep then [] :: r
    else
      match r with
      | [] => [[c]]
      | h :: t => (c :: h) :: t

/-- Models Python `uri.split("/")[-1]`. -/
def uriSuffix (u : String) : String := ⟨(splitChar '/' u.data).getLastD []⟩

/-- Does `pat` occur at the head of `l`? (helper for substring search). -/
def leadMatch : List Char → List Char → Bool
  | _, [] => true
  | [], _ :: _ => false
  | h :: t, n :: m => h == n && leadMatch t m

/-- Does `pat` occur anywhere in `l`? (helper for substring search). -/
def subMatch : List Char → List Char → Bool
  | [], pat => pat.isEmpty
  | h :: t, pat => leadMatch (h :: t) pat || subMatch t pat

/-- `strMentions hay needle` is true when `needle` occurs in `hay` as a
contiguous substring. -/
def strMentions (hay needle : String) : Bool := subMatch hay.data needle.data

/-- Order-preserving deduplication keeping the first occurrence, as iteration
over a Python `dict`-backed container visits keys in insertion order. -/
def dedupFAux {α : Type} [DecidableEq α] (seen : List α) : List α → List α
  | [] => []
  | a :: as => if a ∈ seen then dedupFAux seen as else a :: dedupFAux (a :: seen) as

/-- First-occurrence deduplication. -/
def dedupF {α : Type} [DecidableEq α] (l : List α) : List α := dedupFAux [] l

theorem mem_dedupFAux {α : Type} [DecidableEq α] {x : α} :
    ∀ {seen l : List α}, x ∈ dedupFAux seen l ↔ x ∈ l ∧ x ∉ seen := by
  intro seen l
  induction l generalizing seen with
  | nil => simp [dedupFAux]
  | cons a as ih =>
    by_cases ha : a ∈ seen
    · simp only [dedupFAux, if_pos ha, ih, List.mem_cons]
      constructor
      · exact fun ⟨hx, hs⟩ => ⟨Or.inr hx, hs⟩
      · rintro ⟨hx | hx, hs⟩
        · exact absurd (hx ▸ ha) hs
        · exact ⟨hx, hs⟩
    · simp only [dedupFAux, if_neg ha, List.mem_cons, ih, List.mem_cons]
      constructor
      · rintro (rfl | ⟨hx, hs⟩)
        · exact ⟨Or.inl rfl, ha⟩
        · exact ⟨Or.inr hx, fun h => hs (Or.inr h)⟩
      · rintro ⟨rfl | hx, hs⟩
        · exact Or.inl rfl
        · by_cases hxa : x = a
          · exact Or.inl hxa
          · exact Or.inr ⟨hx, fun h => h.elim hxa hs⟩

theorem mem_dedupF {α : Type} [DecidableEq α] {x : α} {l : List α} :
    x ∈ dedupF l ↔ x ∈ l := by
  simp [dedupF, mem_dedupFAux]

theorem nodup_dedupFAux {α : Type} [DecidableEq α] :
    ∀ {seen l : List α}, (dedupFAux seen l).Nodup := by
  intro seen l
  induction l generalizing seen with
  | nil => simp [dedupFAux]
  | cons a as ih =>
    by_cases ha : a ∈ seen
    · simpa [dedupFAux, if_pos ha] using ih
    · simp only [dedupFAux, if_neg ha, List.nodup_cons]
      refine ⟨fun hmem => ?_, ih⟩
      exact (mem_dedupFAux.mp hmem).2 (List.mem_cons_self a _)

theorem nodup_dedupF {α : Type} [DecidableEq α] {l : List α} : (dedupF l).Nodup :=
  nodup_dedupFAux

/-! ## Data model (the triples the queries touch) -/

/-- A course record: a URI carrying `schema:name` and `schema:courseCode`. -/
structure Course where
  uri : String
  name : String
  code : String
deriving DecidableEq, Repr

/-- A time slot: its `ex:dayOfWeek` day URIs and start/end times in minutes
from midnight (order-isomorphic to the `xsd:time` literals compared by the
conflict query). -/
structure TimeSlot where
  days : List String
  startM : Nat
  endM : Nat
deriving DecidableEq, Repr

/-- A schedule component (`ex:LectureComponent` or `ex:LabComponent`) with its
single `ex:hasTimeSlot` time slot (the ingestion in `json_to_rdf.py` creates
exactly one slot per component). -/
structure Component where
  uri : String
  slot : TimeSlot
deriving DecidableEq, Repr

/-- A course offering: `course ex:offeredIn offering`, `offering ex:semester
sem`, `offering ex:hasComponent comp`. -/
structure Offering where
  course : String
  semester : String
  comps : List Component
deriving DecidableEq, Repr

/-- The typed view of the knowledge graph. -/
structure Store where
  courses : List Course
  prereqs : List (String × String)
  offerings : List Offering
deriving DecidableEq, Repr

/-! ## Query embeddings -/

/-- Rows of `get_course_details_query(uri)`: one `(courseName, courseCode)`
row per course record at `uri`. -/
def courseDetails (s : Store) (uri : String) : List (String × String) :=
  (s.courses.filter (fun c => c.uri == uri)).map (fun c => (c.name, c.code))

/-- `details[0]` of the Python callers: the head row, as a course record. -/
def detailsHead (s : Store) (uri : String) : Option Course :=
  (s.courses.filter (fun c => c.uri == uri)).head?

/-- Direct `ex:hasPrerequisite` successors of a URI, in triple order. -/
def directSuccs (es : List (String × String)) (u : String) : List String :=
  (es.filter (fun e => e.1 == u)).map (fun e => e.2)

/-- Fuel-bounded breadth-first closure (SPARQL property-path `+` evaluation
terminates on cyclic data; the fuel `es.length` bounds the number of
expansion rounds, which never exceeds the number of edges). -/
def closureAux (es : List (String × String)) : Nat → List String → List String → List String
  | 0, _, acc => acc
  | fuel + 1, frontier, acc =>
    let nxt := dedupF ((frontier.flatMap (directSuccs es)).filter (fun v => !(acc.elem v)))
    if nxt.isEmpty then acc else closureAux es fuel nxt (acc ++ nxt)

/-- All URIs reachable from `u` by one or more `ex:hasPrerequisite` hops:
the bindings of `?prereq` in `get_prerequisites_query`. -/
def reachSet (es : List (String × String)) (u : String) : List String :=
  let start := dedupF (directSuccs es u)
  closureAux es es.length start start

/-- Rows of `get_prerequisites_query(strip_code)`: `SELECT DISTINCT ?prereq
?directParent` where `?target (ex:hasPrerequisite)+ ?prereq` and `OPTIONAL {
?prereq ex:hasPrerequisite ?directParent }`. -/
def prereqRows (s : Store) (code : String) : List (String × Option String) :=
  let target := EX (stripSpaces code)
  dedupF ((reachSet s.prereqs target).flatMap (fun p =>
    match directSuccs s.prereqs p with
    | [] => [(p, none)]
    | ds => ds.map (fun d => (p, some d))))

/-- The `edges` list of `get_course_prerequisites`: `(directParent, prereq)`
for every row with a bound parent. -/
def prereqEdges (rows : List (String × Option String)) : List (String × String) :=
  rows.filterMap (fun r => r.2.map (fun d => (d, r.1)))

/-- The `isolated_nodes` set of `get_course_prerequisites`: prereqs of rows
with no bound parent (a Python set, modelled in insertion order). -/
def prereqIso (rows : List (String × Option String)) : List String :=
  dedupF ((rows.filter (fun r => r.2.isNone)).map (fun r => r.1))

/-- Node list of the `networkx.DiGraph` after `add_edges_from(edges)` and
`add_nodes_from(isolated_nodes)`: first occurrence order. -/
def nodesFrom (edges : List (String × String)) (iso : List String) : List String :=
  dedupF (edges.flatMap (fun e => [e.1, e.2]) ++ iso)

/-! ## Kahn layering (networkx topological_sort) -/

/-- The fixed message of `networkx.NetworkXUnfeasible` raised by
`topological_generations` on a cyclic graph. -/
def cycleMsg : String := "Graph contains a cycle or graph changed during iteration"

/-- Nodes of `remaining` with no incoming edge from a `remaining` node: the
next generation of Kahn layering. -/
def zeroIndeg (edges : List (String × String)) (remaining : List String) : List String :=
  remaining.filter (fun v => !(edges.any (fun e => e.2 == v && remaining.elem e.1)))

/-- Kahn layering with explicit fuel; each round removes at least one node,
so `remaining.length` rounds always suffice. -/
def kahnAux (edges : List (String × String)) : Nat → List String → Except String (List String)
  | _, [] => .ok []
  | 0, _ :: _ => .error cycleMsg
  | fuel + 1, r₀ :: r =>
    let remaining := r₀ :: r
    let layer := zeroIndeg edges remaining
    if layer.isEmpty then .error cycleMsg
    else
      match kahnAux edges fuel (remaining.filter (fun v => !(layer.elem v))) with
      | .error e => .error e
      | .ok rest => .ok (layer ++ rest)

/-- `list(nx.topological_sort(G))` on the graph with the given edge list and
node list. -/
def topoSort (edges : List (String × String)) (nodes : List String) :
    Except String (List String) :=
  kahnAux edges nodes.length nodes

/-- The topological stage shared verbatim by both resolver implementations
(`sparql_prereq_tool.get_course_prerequisites` and
`PrerequisiteAgent.get_course_prerequisites` build the same graph from the
same query rows and both call `nx.topological_sort`). -/
def prereqTopo (s : Store) (code : String) : Except String (List String) :=
  let rows := prereqRows s code
  let edges := prereqEdges rows
  topoSort edges (nodesFrom edges (prereqIso rows))

/-! ## The two resolver implementations -/

/-- One entry of a resolved prerequisite chain. -/
structure ChainEntry where
  order : Nat
  code : String
  name : String
deriving DecidableEq, Repr

/-- Chain entries built by `sparql_prereq_tool.get_course_prerequisites`
(lines 62-71): code from the URI suffix, name from `details[0]` with the
sentinel "Unknown Course: No data available" for undefined courses. -/
def toolEntries (s : Store) : Nat → List String → List ChainEntry
  | _, [] => []
  | i, u :: us =>
    { order := i, code := uriSuffix u,
      name := match detailsHead s u with
              | some c => c.name
              | none => "Unknown Course: No data available" } :: toolEntries s (i + 1) us

/-- `sparql_prereq_tool.get_course_prerequisites(course_code)`. -/
def getCoursePrerequisites (s : Store) (code : String) : Except String (List ChainEntry) :=
  match prereqTopo s code with
  | .error e => .error e
  | .ok ordered => .ok (toolEntries s 1 ordered)

/-- Chain entries built by `PrerequisiteAgent.get_course_prerequisites`
(lines 83-95): code from `details[0]["courseCode"]` when defined, URI suffix
otherwise, and the sentinel "Unknown Course - No data available" for
undefined courses. -/
def agentEntries (s : Store) : Nat → List String → List ChainEntry
  | _, [] => []
  | i, u :: us =>
    (match detailsHead s u with
     | none => { order := i, code := uriSuffix u,
                 name := "Unknown Course - No data available" }
     | some c => { order := i, code := c.code, name := c.name }) :: agentEntries s (i + 1) us

/-- The value `PrerequisiteAgent.get_course_prerequisites` stores into the
course entry: a plain string when the query returns no rows, a chain
otherwise (Python assigns either type to the same field). -/
inductive PrereqListVal where
  | chain (entries : List ChainEntry)
  | msg (text : String)
deriving DecidableEq, Repr

/-- `PrerequisiteAgent.get_course_prerequisites(course_code)` (lines 48-95):
the prerequisite list it leaves in `sparql_results`. -/
def agentPrereqList (s : Store) (code : String) : Except String PrereqListVal :=
  if prereqRows s code = [] then
    .ok (.msg s!"No prerequisites found for {code}.")
  else
    match prereqTopo s code with
    | .error e => .error e
    | .ok ordered => .ok (.chain (agentEntries s 1 ordered))

/-- The `course_name` stored by `sparql_query_callback` in its single-course
branch (line 129): note the trailing space after "available" in the source. -/
def agentCourseName (s : Store) (code : String) : String :=
  match detailsHead s (EX (stripSpaces code)) with
  | none => "Unknown Course: No data available "
  | some c => c.name

/-- One numbered line of `sparql_callback` (lines 186-190): the
contact-the-department suffix is appended only when the entry name equals the
colon sentinel. -/
def formatChainLine (e : ChainEntry) : String :=
  if e.name = "Unknown Course: No data available" then
    s!"{e.order}. {e.code} - Unknown Course: No data available — please contact your department administrator.\n"
  else
    s!"{e.order}. {e.code} - {e.name}\n"

/-- `PrerequisiteAgent.sparql_callback` for a single course code (lines
98-200): runs `sparql_query_callback` then formats.  Python iterating a
string stored in `prerequisite_list` and indexing its characters with string
keys raises `TypeError`; that crash (and the `networkx` cycle error) are the
`Except.error` outcomes. -/
def sparqlCallbackSingle (s : Store) (code : String) : Except String String :=
  match agentPrereqList s code with
  | .error e => .error e
  | .ok plist =>
    let cname := agentCourseName s code
    if cname = "Unknown Course: No data available" then
      .ok (s!"The course {code} is not available in our database.\n" ++
           "Please contact your department administrator")
    else
      let header := s!"To take the course:\n  {code} ({cname})\n\n" ++
                    "You must complete the following courses in order:\n\n"
      match plist with
      | .chain [] => .ok (header ++ "There is no prerequisite for this course.\n")
      | .chain es => .ok (header ++ String.join (es.map formatChainLine))
      | .msg m =>
        if m.isEmpty then .ok header
        else .error "TypeError: string indices must be integers"

/-- The course entry built by `sparql_prerequisite_tool` (lines 76-90): the
course name (sentinel when the target is undefined) and the prerequisite
list, which is only computed when the target has a record. -/
def toolCourseEntry (s : Store) (code : String) :
    Except String (String × List ChainEntry) :=
  match detailsHead s (EX (stripSpaces code)) with
  | none => .ok ("Unknown Course: No data available", [])
  | some c =>
    match getCoursePrerequisites s code with
    | .error e => .error e
    | .ok l => .ok (c.name, l)

/-! ## Eligibility filter -/

/-- Direct prerequisites of a course URI (triple order). -/
def prereqsOf (s : Store) (uri : String) : List String :=
  (s.prereqs.filter (fun e => e.1 == uri)).map (fun e => e.2)

/-- Insertion into a list sorted by course code (for `ORDER BY ?courseCode`). -/
def insertByCode (c : Course) : List Course → List Course
  | [] => [c]
  | d :: ds => if c.code ≤ d.code then c :: d :: ds else d :: insertByCode c ds

/-- Sort by course code (`ORDER BY ?courseCode` of the eligibility query). -/
def sortByCode : List Course → List Course
  | [] => []
  | c :: cs => insertByCode c (sortByCode cs)

theorem mem_insertByCode {x c : Course} :
    ∀ {l : List Course}, x ∈ insertByCode c l ↔ x = c ∨ x ∈ l := by
  intro l
  induction l with
  | nil => simp [insertByCode]
  | cons d ds ih =>
    simp only [insertByCode]
    split
    · simp only [List.mem_cons]
    · simp only [List.mem_cons, ih]
      tauto

theorem mem_sortByCode {x : Course} :
    ∀ {l : List Course}, x ∈ sortByCode l ↔ x ∈ l := by
  intro l
  induction l with
  | nil => simp [sortByCode]
  | cons d ds ih => simp [sortByCode, mem_insertByCode, ih]

/-- Rows of `check_eligibility_query(completed_courses)` as course records: a
course is kept iff the `OPTIONAL { ?course ex:hasPrerequisite ?prereq .
FILTER(?prereq NOT IN (ex:c1, ...)) }` block binds nothing, i.e. iff every
direct prerequisite is among the completed course URIs (with an empty
completed list, `NOT IN ()` holds of every prerequisite, so any prerequisite
binds and only prerequisite-free courses pass `FILTER(!BOUND(?prereq))`). -/
def checkEligibility (s : Store) (completed : List String) : List Course :=
  sortByCode (s.courses.filter
    (fun c => (prereqsOf s c.uri).all (fun p => (completed.map EX).elem p)))

/-! ## Schedule conflict detection -/

/-- Names bound for a course URI by `schema:name` (the `?course1Name` join of
the conflict query). -/
def courseNames (s : Store) (uri : String) : List String :=
  (s.courses.filter (fun c => c.uri == uri)).map (fun c => c.name)

/-- Offerings of `uri` whose `ex:semester` equals the selected semester. -/
def offeringsIn (s : Store) (uri sem : String) : List Offering :=
  s.offerings.filter (fun o => o.course == uri && o.semester == sem)

/-- Days shared by two time slots (the join on `?day` of the conflict query). -/
def sharedDays (t₁ t₂ : TimeSlot) : List String :=
  t₁.days.filter (fun d => t₂.days.elem d)

/-- The overlap FILTER of `check_time_conflicts_query`:
`?start1 < ?end2 && ?start2 < ?end1`. -/
def overlapB (t₁ t₂ : TimeSlot) : Bool :=
  decide (t₁.startM < t₂.endM) && decide (t₂.startM < t₁.endM)

/-- Lexicographic codepoint comparison of character lists (the order of
`String.lt` / SPARQL simple-literal comparison). -/
def charListLt : List Char → List Char → Bool
  | [], [] => false
  | [], _ :: _ => true
  | _ :: _, [] => false
  | a :: as, b :: bs =>
    if a < b then true else if b < a then false else charListLt as bs

/-- The string comparison `STR(?course1) < STR(?course2)` (codepoint
lexicographic). -/
def strLt (a b : String) : Bool := charListLt a.data b.data

theorem charListLt_total :
    ∀ l₁ l₂ : List Char, l₁ = l₂ ∨ charListLt l₁ l₂ = true ∨ charListLt l₂ l₁ = true := by
  intro l₁
  induction l₁ with
  | nil =>
    intro l₂
    cases l₂ with
    | nil => exact Or.inl rfl
    | cons b bs => exact Or.inr (Or.inl rfl)
  | cons a as ih =>
    intro l₂
    cases l₂ with
    | nil => exact Or.inr (Or.inr rfl)
    | cons b bs =>
      rcases lt_trichotomy a b with hab | hab | hab
      · refine Or.inr (Or.inl ?_)
        simp [charListLt, hab]
      · subst hab
        rcases ih bs with h | h | h
        · exact Or.inl (by rw [h])
        · exact Or.inr (Or.inl (by simp [charListLt, h]))
        · exact Or.inr (Or.inr (by simp [charListLt, h]))
      · refine Or.inr (Or.inr ?_)
        simp [charListLt, hab]

theorem strLt_total {a b : String} (h : a ≠ b) :
    strLt a b = true ∨ strLt b a = true := by
  rcases charListLt_total a.data b.data with heq | hlt | hgt
  · exact absurd (by cases a; cases b; exact congrArg String.mk heq) h
  · exact Or.inl hlt
  · exact Or.inr hgt

/-- One result row of `check_time_conflicts_query`. -/
structure ConflictRow where
  course1 : String
  course1Name : String
  course2 : String
  course2Name : String
  semester : String
  comp1 : String
  comp2 : String
  day : String
  start1 : Nat
  end1 : Nat
  start2 : Nat
  end2 : Nat
deriving DecidableEq, Repr

/-- Rows of the conflict query for one ordered course pair: join names,
offerings matching the semester, components, the shared day, and the overlap
filter. -/
def rowsFor (s : Store) (c1 c2 sem : String) : List ConflictRow :=
  (courseNames s (EX c1)).flatMap (fun n1 =>
  (courseNames s (EX c2)).flatMap (fun n2 =>
  (offeringsIn s (EX c1) sem).flatMap (fun o1 =>
  (offeringsIn s (EX c2) sem).flatMap (fun o2 =>
  o1.comps.flatMap (fun k1 =>
  o2.comps.flatMap (fun k2 =>
  if overlapB k1.slot k2.slot then
    (sharedDays k1.slot k2.slot).map (fun d =>
      { course1 := EX c1, course1Name := n1, course2 := EX c2, course2Name := n2,
        semester := sem, comp1 := k1.uri, comp2 := k2.uri, day := d,
        start1 := k1.slot.startM, end1 := k1.slot.endM,
        start2 := k2.slot.startM, end2 := k2.slot.endM })
  else []))))))

/-- All rows of `check_time_conflicts_query(course_ids, semester)`: both
`VALUES` lists range over the requested ids and
`FILTER(STR(?course1) < STR(?course2))` keeps ordered pairs. -/
def conflictRows (s : Store) (ids : List String) (sem : String) : List ConflictRow :=
  ids.flatMap (fun a => ids.flatMap (fun b =>
    if strLt (EX a) (EX b) then rowsFor s a b sem else []))

/-- Shape of the dict `detect_conflicts` tries to build per query row (lines
38-47: display names via `str(r.course1Name)`, the day after
`split("#")[-1]`, the times via `str`).  The rows `execute_query` hands back
are plain dicts (`dict(row.asdict())`, `sparql_tool.py:20`), which do not
support attribute access, so no such entry is ever built at run time; the
type remains only to give the dead formatting branch of `explain_conflicts`
its element type. -/
structure ConflictEntry where
  course1 : String
  course2 : String
  semester : String
  day : String
  course1Start : String
  course1End : String
  course2Start : String
  course2End : String
deriving DecidableEq, Repr

/-- The `AttributeError` raised at `r.course1Name` (`scheduler_agent.py:39`)
when the per-row loop of `detect_conflicts` touches its first row: the rows
are plain dicts, not `rdflib` result rows. -/
def attrErrMsg : String :=
  "AttributeError: 'dict' object has no attribute 'course1Name'"

/-- Result of a `detect_conflicts` call that returns: because the per-row
loop raises on its first iteration, a returned result always carries an
empty conflict list together with the no-conflict message. -/
structure ConflictResult where
  conflicts : List ConflictEntry
  message : Option String
deriving DecidableEq, Repr

/-- `SchedulerAgent.detect_conflicts(course_ids, semester)` (lines 31-56):
with no conflict rows the loop body never runs and the no-conflict structure
is returned; with at least one row the first iteration reads
`r.course1Name` by attribute on a dict row and raises `AttributeError`
(modelled as `Except.error attrErrMsg`). -/
def detectConflicts (s : Store) (ids : List String) (sem : String) :
    Except String ConflictResult :=
  match conflictRows s ids sem with
  | [] =>
    .ok { conflicts := [],
          message := some "No schedule conflicts detected for the selected semester." }
  | _ :: _ => .error attrErrMsg

/-- The early-return message of `explain_conflicts` when some course has no
record (the two adjacent Python string literals concatenate without a
space). -/
def noInfoMsg : String :=
  "We don't have schedule information for one or more of these courses." ++
  "Please contact your department for clarification."

/-- The per-course intro lines of `explain_conflicts`; a course with no
record triggers the early return (modelled as `Except.error`). -/
def introFold (s : Store) : List String → Except String String
  | [] => .ok ""
  | cid :: rest =>
    match detailsHead s (EX (stripSpaces cid)) with
    | none => .error noInfoMsg
    | some c => (introFold s rest).map (fun r => s!"- {cid} : {c.name}\n" ++ r)

/-- One conflict bullet of `explain_conflicts` (lines 90-97; dead in
practice, since a `detect_conflicts` call that returns never carries
entries). -/
def conflictBullet (c : ConflictEntry) : String :=
  s!"\n• **{c.course1}** and **{c.course2}** conflict in **{c.semester}**:\n" ++
  s!"  - Both meet on **{c.day}**.\n" ++
  s!"  - {c.course1} meets **{c.course1Start}-{c.course1End}**.\n" ++
  s!"  - {c.course2} meets **{c.course2Start}-{c.course2End}**.\n" ++
  "  → These times overlap, so you cannot take them together."

/-- `SchedulerAgent.explain_conflicts(course_ids, semester)` (lines 59-98):
the missing-record early return is a normal string result, while an
`AttributeError` escaping `detect_conflicts` propagates out of
`explain_conflicts` as well (`Except.error`). -/
def explainConflicts (s : Store) (ids : List String) (sem : String) :
    Except String String :=
  match introFold s ids with
  | .error m => .ok m
  | .ok lines =>
    let intro := s!"You asked to check schedule conflicts for the following courses in semester **{sem}**:\n" ++ lines
    match detectConflicts s ids sem with
    | .error e => .error e
    | .ok res =>
      if res.conflicts.isEmpty then
        .ok (intro ++ "Good news! There are **no schedule conflicts** among these courses.")
      else
        .ok (String.intercalate "\n"
          ((intro ++ "I found the following schedule conflicts:\n") ::
            res.conflicts.map conflictBullet))

/-! ## Graph accessor (`sparql_tool.py`) -/

/-- The query shapes issued by the core, plus a malformed query (one the
backend parser rejects). -/
inductive KGQuery where
  | details (uri : String)
  | prereqs (code : String)
  | eligibility (completed : List String)
  | conflicts (ids : List String) (sem : String)
  | malformed (text : String)

/-- A result row: bindings from variable names to values. -/
abbrev Row := List (String × String)

/-- The diagnostic `str(e)` of the backend parser on a malformed query
(abstracted as a function of the query text). -/
def parseErrorMsg (t : String) : String := "Malformed SPARQL query: " ++ t

/-- Evaluating a query against a loaded store: the well-formed shapes return
their binding rows, a malformed query raises (models
`rdflib.Graph.query` raising inside `execute_query`). -/
def evalQuery (s : Store) : KGQuery → Except String (List Row)
  | .details uri =>
    .ok ((courseDetails s uri).map (fun r => [("courseName", r.1), ("courseCode", r.2)]))
  | .prereqs code =>
    .ok ((prereqRows s code).map (fun r =>
      match r.2 with
      | some d => [("prereq", r.1), ("directParent", d)]
      | none => [("prereq", r.1)]))
  | .eligibility completed =>
    .ok ((checkEligibility s completed).map (fun c =>
      [("course", c.uri), ("courseName", c.name), ("courseCode", c.code)]))
  | .conflicts ids sem =>
    .ok ((conflictRows s ids sem).map (fun r =>
      [("course1", r.course1), ("course1Name", r.course1Name),
       ("course2", r.course2), ("course2Name", r.course2Name),
       ("semester", r.semester), ("comp1", r.comp1), ("comp2", r.comp2),
       ("day", r.day),
       ("start1", toString r.start1), ("end1", toString r.end1),
       ("start2", toString r.start2), ("end2", toString r.end2)]))
  | .malformed t => .error (parseErrorMsg t)

/-- `SPARQLKnowledgeGraph.execute_query` (lines 16-22): catches the backend
exception and returns the single row `{"error": str(e)}`. -/
def executeQuery (s : Store) (q : KGQuery) : List Row :=
  match evalQuery s q with
  | .ok rows => rows
  | .error e => [[("error", e)]]

/-- `query_knowledge_graph` (lines 33-46): the uninitialized singleton also
yields a single `{"error": ...}` row. -/
def queryKnowledgeGraph (inst : Option Store) (q : KGQuery) : List Row :=
  match inst with
  | none => [[("error", "Knowledge graph not initialized")]]
  | some s => executeQuery s q

/-- The accessor failed to execute the query: the store is uninitialized or
the backend rejected the query. -/
def QueryFails (inst : Option Store) (q : KGQuery) : Prop :=
  match inst with
  | none => True
  | some s => ∃ m, evalQuery s q = .error m

/-! ## Kahn layering metatheory -/

theorem kahnAux_error_msg {edges : List (String × String)} :
    ∀ {fuel : Nat} {remaining : List String} {e : String},
      kahnAux edges fuel remaining = .error e → e = cycleMsg := by
  intro fuel
  induction fuel with
  | zero =>
    intro remaining e h
    cases remaining with
    | nil => simp [kahnAux] at h
    | cons r₀ r => simpa [kahnAux] using h.symm
  | succ n ih =>
    intro remaining e h
    cases remaining with
    | nil => simp [kahnAux] at h
    | cons r₀ r =>
      simp only [kahnAux] at h
      split at h
      · exact (Except.error.inj h).symm
      · split at h
        next heq =>
          cases h
          exact ih heq
        next => simp at h

theorem kahnAux_covers {edges : List (String × String)} :
    ∀ {fuel : Nat} {remaining l : List String},
      kahnAux edges fuel remaining = .ok l → ∀ v ∈ remaining, v ∈ l := by
  intro fuel
  induction fuel with
  | zero =>
    intro remaining l h v hv
    cases remaining with
    | nil => cases hv
    | cons r₀ r => simp [kahnAux] at h
  | succ n ih =>
    intro remaining l h v hv
    cases remaining with
    | nil => cases hv
    | cons r₀ r =>
      simp only [kahnAux] at h
      split at h
      · simp at h
      · split at h
        next => simp at h
        next rest hrest =>
          cases h
          by_cases hvl : v ∈ zeroIndeg edges (r₀ :: r)
          · exact List.mem_append_left _ hvl
          · refine List.mem_append_right _ (ih hrest v ?_)
            refine List.mem_filter.mpr ⟨hv, ?_⟩
            simp [List.elem_iff, hvl]

theorem kahnAux_sub {edges : List (String × String)} :
    ∀ {fuel : Nat} {remaining l : List String},
      kahnAux edges fuel remaining = .ok l → ∀ v ∈ l, v ∈ remaining := by
  intro fuel
  induction fuel with
  | zero =>
    intro remaining l h v hv
    cases remaining with
    | nil => cases h; cases hv
    | cons r₀ r => simp [kahnAux] at h
  | succ n ih =>
    intro remaining l h v hv
    cases remaining with
    | nil => cases h; cases hv
    | cons r₀ r =>
      simp only [kahnAux] at h
      split at h
      · simp at h
      · split at h
        next => simp at h
        next rest hrest =>
          cases h
          rcases List.mem_append.mp hv with hvl | hvr
          · exact (List.mem_filter.mp hvl).1
          · exact (List.mem_filter.mp (ih hrest v hvr)).1

theorem kahnAux_nodup {edges : List (String × String)} :
    ∀ {fuel : Nat} {remaining l : List String},
      remaining.Nodup → kahnAux edges fuel remaining = .ok l → l.Nodup := by
  intro fuel
  induction fuel with
  | zero =>
    intro remaining l hnd h
    cases remaining with
    | nil => cases h; exact List.nodup_nil
    | cons r₀ r => simp [kahnAux] at h
  | succ n ih =>
    intro remaining l hnd h
    cases remaining with
    | nil => cases h; exact List.nodup_nil
    | cons r₀ r =>
      simp only [kahnAux] at h
      split at h
      · simp at h
      · split at h
        next => simp at h
        next rest hrest =>
          cases h
          refine List.Nodup.append (List.Nodup.filter _ hnd) (ih (List.Nodup.filter _ hnd) hrest) ?_
          intro v hvl hvr
          have := List.mem_filter.mp (kahnAux_sub hrest v hvr)
          rw [Bool.not_eq_true', ← Bool.not_eq_true] at this
      
          exact this.2 (by simpa [List.elem_iff] using hvl)

theorem kahnAux_edge_order {edges : List (String × String)} :
    ∀ {fuel : Nat} {remaining l : List String},
      remaining.Nodup → kahnAux edges fuel remaining = .ok l →
      ∀ u v : String, (u, v) ∈ edges → u ∈ remaining → v ∈ remaining →
        l.indexOf u < l.indexOf v := by
  intro fuel
  induction fuel with
  | zero =>
    intro remaining l hnd h u v he hu hv
    cases remaining with
    | nil => cases hu
    | cons r₀ r => simp [kahnAux] at h
  | succ n ih =>
    intro remaining l hnd h u v he hu hv
    cases remaining with
    | nil => cases hu
    | cons r₀ r =>
      simp only [kahnAux] at h
      split at h
      · simp at h
      · split at h
        next => simp at h
        next rest hrest =>
          cases h
          have hvnl : v ∉ zeroIndeg edges (r₀ :: r) := by
            intro hvl
            have h2 := (List.mem_filter.mp hvl).2
            rw [Bool.not_eq_true'] at h2
            have h3 : (edges.any fun e => e.2 == v && List.elem e.1 (r₀ :: r)) = true :=
              List.any_eq_true.mpr ⟨(u, v), he, by simp [List.elem_iff, hu]⟩
            rw [h2] at h3
            exact Bool.false_ne_true h3
          have hvf : v ∈ (r₀ :: r).filter
              (fun x => !((zeroIndeg edges (r₀ :: r)).elem x)) := by
            refine List.mem_filter.mpr ⟨hv, ?_⟩
            simp [List.elem_iff, hvnl]
          have hvrest : v ∈ rest := kahnAux_covers hrest v hvf
          have hidxv : (zeroIndeg edges (r₀ :: r) ++ rest).indexOf v =
              (zeroIndeg edges (r₀ :: r)).length + rest.indexOf v :=
            List.indexOf_append_of_not_mem hvnl
          by_cases hul : u ∈ zeroIndeg edges (r₀ :: r)
          · have hidxu : (zeroIndeg edges (r₀ :: r) ++ rest).indexOf u =
                (zeroIndeg edges (r₀ :: r)).indexOf u :=
              List.indexOf_append_of_mem hul
            rw [hidxu, hidxv]
            exact lt_of_lt_of_le (List.indexOf_lt_length.mpr hul) (Nat.le_add_right _ _)
          · have huf : u ∈ (r₀ :: r).filter
                (fun x => !((zeroIndeg edges (r₀ :: r)).elem x)) := by
              refine List.mem_filter.mpr ⟨hu, ?_⟩
              simp [List.elem_iff, hul]
            have hidxu : (zeroIndeg edges (r₀ :: r) ++ rest).indexOf u =
                (zeroIndeg edges (r₀ :: r)).length + rest.indexOf u :=
              List.indexOf_append_of_not_mem hul
            rw [hidxu, hidxv]
            exact Nat.add_lt_add_left
              (ih (List.Nodup.filter _ hnd) hrest u v he huf hvf) _

/-- A nonempty directed path in an edge list (one or more hops). -/
inductive EdgePath (es : List (String × String)) : String → String → Prop
  | single {u v : String} : (u, v) ∈ es → EdgePath es u v
  | tail {u v w : String} : EdgePath es u v → (v, w) ∈ es → EdgePath es u w

theorem EdgePath.head_mem {es : List (String × String)} {u v : String}
    (p : EdgePath es u v) : ∃ w, (u, w) ∈ es := by
  induction p with
  | single h => exact ⟨_, h⟩
  | tail _ _ ih => exact ih

theorem kahnAux_path_order {edges : List (String × String)}
    {fuel : Nat} {remaining l : List String}
    (hnd : remaining.Nodup) (h : kahnAux edges fuel remaining = .ok l)
    (hend : ∀ e ∈ edges, e.1 ∈ remaining ∧ e.2 ∈ remaining)
    {u v : String} (p : EdgePath edges u v) :
    l.indexOf u < l.indexOf v := by
  induction p with
  | single he =>
    exact kahnAux_edge_order hnd h _ _ he (hend _ he).1 (hend _ he).2
  | tail _ he ih =>
    exact lt_trans ih (kahnAux_edge_order hnd h _ _ he (hend _ he).1 (hend _ he).2)

theorem nodesFrom_endpoints {edges : List (String × String)} {iso : List String}
    {e : String × String} (he : e ∈ edges) :
    e.1 ∈ nodesFrom edges iso ∧ e.2 ∈ nodesFrom edges iso := by
  constructor <;>
  · rw [nodesFrom, mem_dedupF]
    refine List.mem_append_left _ (List.mem_flatMap.mpr ⟨e, he, ?_⟩)
    simp

/-- A cycle in the graph the resolver builds makes `topoSort` fail with the
fixed networkx message. -/
theorem topoSort_cycle_error {edges : List (String × String)} (iso : List String)
    {u : String} (hcyc : EdgePath edges u u) :
    topoSort edges (nodesFrom edges iso) = .error cycleMsg := by
  cases htopo : topoSort edges (nodesFrom edges iso) with
  | error e => rw [kahnAux_error_msg htopo]
  | ok l =>
    exfalso
    have hend : ∀ e ∈ edges, e.1 ∈ nodesFrom edges iso ∧ e.2 ∈ nodesFrom edges iso :=
      fun e he => nodesFrom_endpoints he
    exact lt_irrefl _ (kahnAux_path_order nodup_dedupF htopo hend hcyc)

/-! ## Injectivity of the `ex:` namespace -/

theorem EX_inj : ∀ {a b : String}, EX a = EX b → a = b := by
  intro ⟨da⟩ ⟨db⟩ h
  have hd := congrArg String.data h
  rw [EX, EX, String.data_append, String.data_append] at hd
  exact congrArg String.mk (List.append_cancel_left hd)

/-! ## Concrete stores used to instantiate and refute the claims -/

/-- Two-hop chain: A1 requires B1, B1 requires C1, all three defined. -/
def chainStore : Store :=
  { courses := [⟨EX "A1", "A One", "A1"⟩, ⟨EX "B1", "B One", "B1"⟩,
                ⟨EX "C1", "C One", "C1"⟩],
    prereqs := [(EX "A1", EX "B1"), (EX "B1", EX "C1")],
    offerings := [] }

/-- Two-cycle: CY1 requires CY2 and CY2 requires CY1. -/
def cycStore : Store :=
  { courses := [⟨EX "CY1", "Cy One", "CY1"⟩, ⟨EX "CY2", "Cy Two", "CY2"⟩],
    prereqs := [(EX "CY1", EX "CY2"), (EX "CY2", EX "CY1")],
    offerings := [] }

/-- A second two-cycle on different course codes. -/
def cycStore2 : Store :=
  { courses := [⟨EX "ZZ1", "Zz One", "ZZ1"⟩, ⟨EX "ZZ2", "Zz Two", "ZZ2"⟩],
    prereqs := [(EX "ZZ1", EX "ZZ2"), (EX "ZZ2", EX "ZZ1")],
    offerings := [] }

/-- A defined target whose sole prerequisite edge points at an undefined
course (the EXAMPLE_TTL pattern). -/
def stT : Store :=
  { courses := [⟨EX "TGT", "Target Course", "TGT"⟩],
    prereqs := [(EX "TGT", EX "MISSING")],
    offerings := [] }

/-- The empty knowledge graph. -/
def emptyStore : Store := ⟨[], [], []⟩

/-- CSA offered in 2025 Fall; CSB has a course record but no 2025 Fall
offering. -/
def stS : Store :=
  { courses := [⟨EX "CSA", "Course SA", "CSA"⟩, ⟨EX "CSB", "Course SB", "CSB"⟩],
    prereqs := [],
    offerings := [⟨EX "CSA", "2025 Fall", [⟨EX "CSA_LEC_0", ⟨[EX "Monday"], 540, 600⟩⟩]⟩,
                  ⟨EX "CSB", "2026 Spring", [⟨EX "CSB_LEC_0", ⟨[EX "Monday"], 540, 600⟩⟩]⟩] }

/-- Two courses offered in 2025 Fall with overlapping Monday lectures
(9:00-11:00 and 10:00-12:00 in minutes from midnight). -/
def stC : Store :=
  { courses := [⟨EX "CA", "Course A", "CA"⟩, ⟨EX "CB", "Course B", "CB"⟩],
    prereqs := [],
    offerings := [⟨EX "CA", "2025 Fall", [⟨EX "CA_LEC_0", ⟨[EX "Monday"], 540, 660⟩⟩]⟩,
                  ⟨EX "CB", "2025 Fall", [⟨EX "CB_LEC_0", ⟨[EX "Monday"], 600, 720⟩⟩]⟩] }

/-- E1 has no prerequisites, E2 requires E1. -/
def stE : Store :=
  { courses := [⟨EX "E1", "E One", "E1"⟩, ⟨EX "E2", "E Two", "E2"⟩],
    prereqs := [(EX "E2", EX "E1")],
    offerings := [] }

/-- WA requires WB; both defined and each stored courseCode equals the URI
suffix. -/
def stW : Store :=
  { courses := [⟨EX "WA", "W A", "WA"⟩, ⟨EX "WB", "W B", "WB"⟩],
    prereqs := [(EX "WA", EX "WB")],
    offerings := [] }

/-- Position-based "the entry coded `x` occurs before the entry coded `y`"
on a resolved chain. -/
def codeBefore (l : List ChainEntry) (x y : String) : Prop :=
  ∃ i j : Nat, i < j ∧ (l.get? i).map ChainEntry.code = some x ∧
    (l.get? j).map ChainEntry.code = some y

/-! ## C1 -/

/-- C1 counterexample: on the two-hop chain A1 requires B1 requires C1, the
resolved chain is `[C1, B1]` — it does NOT contain B1 before C1 (the claim
asserts B before C). -/
theorem c1_counterexample :
    getCoursePrerequisites chainStore "A1" =
      .ok [⟨1, "C1", "C One"⟩, ⟨2, "B1", "B One"⟩] ∧
    ¬ codeBefore [⟨1, "C1", "C One"⟩, ⟨2, "B1", "B One"⟩] "B1" "C1" := by
  refine ⟨by rfl, ?_⟩
  rintro ⟨i, j, hij, hi, hj⟩
  have hj0 : j = 0 := by
    match j, hj with
    | 0, _ => rfl
    | 1, hj => simp [List.get?] at hj
    | (n + 2), hj => simp [List.get?] at hj
  subst hj0
  exact absurd hij (Nat.not_lt_zero i)

/-- C1 amended: whenever the transitive-closure query rows describe the
two-hop chain (rows `[(B, some C), (C, none)]` for target code `a`), the
resolved chain lists C first and B second — the deeper prerequisite comes
before the shallower one, the reverse of the claimed order. -/
theorem c1_amended_chain_order (s : Store) (a B C : String)
    (hrows : prereqRows s a = [(B, some C), (C, none)])
    (hBC : B ≠ C) :
    ∃ eB eC : ChainEntry,
      getCoursePrerequisites s a = .ok [eC, eB] ∧
      eC.code = uriSuffix C ∧ eB.code = uriSuffix B := by
  have hedges : prereqEdges (prereqRows s a) = [(C, B)] := by
    rw [hrows]; rfl
  have hiso : prereqIso (prereqRows s a) = [C] := by
    rw [hrows]; rfl
  have hcb : (C == B) = false := by simp [Ne.symm hBC]
  have hbc : (B == C) = false := by simp [hBC]
  have hnodes : nodesFrom [(C, B)] [C] = [C, B] := by
    simp [nodesFrom, dedupF, dedupFAux, List.mem_singleton, List.mem_cons, hBC,
      Ne.symm hBC]
  have htopo : topoSort [(C, B)] [C, B] = .ok [C, B] := by
    simp [topoSort, kahnAux, zeroIndeg, List.filter, List.any, List.elem, hcb, hbc,
      hBC, Ne.symm hBC]
  have hpt : prereqTopo s a = .ok [C, B] := by
    simp only [prereqTopo]
    rw [hedges, hiso, hnodes, htopo]
  refine ⟨⟨2, uriSuffix B, match detailsHead s B with
            | some c => c.name
            | none => "Unknown Course: No data available"⟩,
         ⟨1, uriSuffix C, match detailsHead s C with
            | some c => c.name
            | none => "Unknown Course: No data available"⟩,
         ?_, rfl, rfl⟩
  simp only [getCoursePrerequisites, hpt, toolEntries]

/-- C1 witness: the amended order theorem instantiated on `chainStore`. -/
theorem c1_witness :
    ∃ eB eC : ChainEntry,
      getCoursePrerequisites chainStore "A1" = .ok [eC, eB] ∧
      eC.code = uriSuffix (EX "C1") ∧ eB.code = uriSuffix (EX "B1") :=
  c1_amended_chain_order chainStore "A1" (EX "B1") (EX "C1") (by rfl) (by decide)

/-! ## C2 -/

/-- C2 amended: a cycle in the prerequisite graph the resolver builds makes
`resolve` fail explicitly with the fixed networkx cycle error — it never
loops (the function is total) and never returns a partial chain. -/
theorem c2_cycle_error (s : Store) (code u : String)
    (hcyc : EdgePath (prereqEdges (prereqRows s code)) u u) :
    getCoursePrerequisites s code = .error cycleMsg := by
  have h := topoSort_cycle_error (prereqIso (prereqRows s code)) hcyc
  simp only [getCoursePrerequisites, prereqTopo]
  rw [h]

/-- C2 counterexample: the error raised on a cyclic graph is the same fixed
library string for two different cyclic stores, and that string mentions
none of the course codes involved — it is not a DataIntegrityError naming
the courses. -/
theorem c2_counterexample :
    getCoursePrerequisites cycStore "CY1" = .error cycleMsg ∧
    getCoursePrerequisites cycStore2 "ZZ1" = .error cycleMsg ∧
    strMentions cycleMsg "CY1" = false ∧ strMentions cycleMsg "CY2" = false ∧
    strMentions cycleMsg "ZZ1" = false ∧ strMentions cycleMsg "ZZ2" = false :=
  ⟨by rfl, by rfl, by rfl, by rfl, by rfl, by rfl⟩

/-- C2 witness: the cycle theorem instantiated on the concrete two-cycle. -/
theorem c2_witness : getCoursePrerequisites cycStore "CY1" = .error cycleMsg := by
  have h1 : (EX "CY1", EX "CY2") ∈ prereqEdges (prereqRows cycStore "CY1") := by decide
  have h2 : (EX "CY2", EX "CY1") ∈ prereqEdges (prereqRows cycStore "CY1") := by decide
  exact c2_cycle_error cycStore "CY1" (EX "CY1") (EdgePath.tail (EdgePath.single h1) h2)

/-! ## C9 -/

/-- C9: resolving the same course code twice against the same unchanged
store yields identical ordered chains (the embedded pipeline — query rows,
graph construction, Kahn layering — is a deterministic function of the
store). -/
theorem c9_resolve_idempotent (s₁ s₂ : Store) (code : String) (h : s₁ = s₂) :
    getCoursePrerequisites s₁ code = getCoursePrerequisites s₂ code := by
  rw [h]

/-- C9 witness: two runs on `chainStore` coincide. -/
theorem c9_witness :
    getCoursePrerequisites chainStore "A1" = getCoursePrerequisites chainStore "A1" :=
  c9_resolve_idempotent chainStore chainStore "A1" rfl

/-! ## C3 -/

/-- The explanation `sparql_callback` actually prints for a defined target
with one undefined prerequisite. -/
def c3Output : String :=
  "To take the course:\n  TGT (Target Course)\n\n" ++
  "You must complete the following courses in order:\n\n" ++
  "1. MISSING - Unknown Course - No data available\n"

/-- C3: on a chain with an undefined prerequisite the tool resolver does
complete, keeping the undefined course in the chain under the colon sentinel
and losing nothing — but the agent pipeline stores the DASH sentinel
"Unknown Course - No data available", so the formatter test at
`prerequisite_agent.py:187` (which compares with the COLON sentinel) never
fires and the rendered numbered line carries no
contact-the-department suffix. -/
theorem c3_unknown_prereq_bug :
    getCoursePrerequisites stT "TGT" =
      .ok [⟨1, "MISSING", "Unknown Course: No data available"⟩] ∧
    sparqlCallbackSingle stT "TGT" = .ok c3Output ∧
    strMentions c3Output "please contact your department administrator" = false :=
  ⟨by rfl, by rfl, by rfl⟩

/-! ## C7 -/

/-- C7: for an unknown target the tool resolver itself does return the
unknown-course entry with an empty chain and no traversal; but the agent
pipeline's single-course branch stores the sentinel WITH a trailing space
(`prerequisite_agent.py:129`), so the not-available branch at line 179 is
skipped and the formatter then iterates the string
"No prerequisites found for ..." as if it were a list of dicts — a
`TypeError` crash instead of the claimed non-exceptional message. -/
theorem c7_unknown_target_bug :
    toolCourseEntry emptyStore "FAKE999" =
      .ok ("Unknown Course: No data available", []) ∧
    agentCourseName emptyStore "FAKE999" = "Unknown Course: No data available " ∧
    sparqlCallbackSingle emptyStore "FAKE999" =
      .error "TypeError: string indices must be integers" :=
  ⟨by rfl, by rfl, by rfl⟩

/-! ## C10 -/

/-- Entry lists of the two resolvers agree on every course that is defined
and whose stored courseCode equals its URI suffix. -/
theorem entries_agree (s : Store) :
    ∀ (us : List String) (i : Nat),
      (∀ u ∈ us, ∃ c, detailsHead s u = some c ∧ c.code = uriSuffix u) →
      agentEntries s i us = toolEntries s i us := by
  intro us
  induction us with
  | nil => intro i _; rfl
  | cons u rest ih =>
    intro i h
    obtain ⟨c, hc, hcode⟩ := h u (List.mem_cons_self u rest)
    simp only [agentEntries, toolEntries, hc, hcode]
    rw [ih (i + 1) (fun v hv => h v (List.mem_cons_of_mem _ hv))]

/-- C10 amended: when the course has at least one prerequisite row and every
course in the topologically ordered closure is defined with stored
courseCode equal to its URI suffix, the two resolver implementations produce
identical chains (same order, codes and names); the counterexample shows
they disagree on undefined courses. -/
theorem c10_amended_equiv (s : Store) (code : String)
    (hrows : prereqRows s code ≠ [])
    (hdef : ∀ ordered, prereqTopo s code = .ok ordered →
      ∀ u ∈ ordered, ∃ c, detailsHead s u = some c ∧ c.code = uriSuffix u) :
    agentPrereqList s code = (getCoursePrerequisites s code).map PrereqListVal.chain := by
  simp only [agentPrereqList, getCoursePrerequisites, if_neg hrows]
  cases htopo : prereqTopo s code with
  | error e => rfl
  | ok ordered =>
    simp only [Except.map]
    rw [entries_agree s ordered 1 (hdef ordered htopo)]

/-- C10 counterexample: with an undefined course in the closure, the tool
chain carries the colon sentinel while the agent chain carries the dash
sentinel — the course-name strings differ. -/
theorem c10_counterexample :
    getCoursePrerequisites stT "TGT" =
      .ok [⟨1, "MISSING", "Unknown Course: No data available"⟩] ∧
    agentPrereqList stT "TGT" =
      .ok (.chain [⟨1, "MISSING", "Unknown Course - No data available"⟩]) ∧
    ([⟨1, "MISSING", "Unknown Course: No data available"⟩] : List ChainEntry) ≠
      [⟨1, "MISSING", "Unknown Course - No data available"⟩] :=
  ⟨by rfl, by rfl, by decide⟩

/-- C10 witness: the equivalence theorem instantiated on `stW` (all closure
courses defined, codes equal to URI suffixes). -/
theorem c10_witness :
    agentPrereqList stW "WA" = (getCoursePrerequisites stW "WA").map PrereqListVal.chain :=
  c10_amended_equiv stW "WA" (by decide) (by
    intro ordered htopo u hu
    have h2 : prereqTopo stW "WA" = .ok [EX "WB"] := by rfl
    rw [h2] at htopo
    have h3 := (Except.ok.inj htopo).symm
    subst h3
    rw [List.mem_singleton] at hu
    subst hu
    exact ⟨⟨EX "WB", "W B", "WB"⟩, by rfl, by decide⟩)

/-! ## C6 -/

/-- C6: with an empty completed set the eligibility query returns exactly
the courses with zero prerequisite edges, and a course with zero
prerequisite edges is in the result for every completed set. -/
theorem c6_eligible_zero_prereq (s : Store) :
    (∀ c : Course, c ∈ checkEligibility s [] ↔ c ∈ s.courses ∧ prereqsOf s c.uri = []) ∧
    (∀ (completed : List String) (c : Course),
      c ∈ s.courses → prereqsOf s c.uri = [] → c ∈ checkEligibility s completed) := by
  constructor
  · intro c
    rw [checkEligibility, mem_sortByCode, List.mem_filter]
    constructor
    · rintro ⟨hc, hall⟩
      refine ⟨hc, ?_⟩
      rw [List.all_eq_true] at hall
      cases hp : prereqsOf s c.uri with
      | nil => rfl
      | cons p ps =>
        have := hall p (by rw [hp]; exact List.mem_cons_self p ps)
        simp at this
    · rintro ⟨hc, hp⟩
      refine ⟨hc, ?_⟩
      rw [hp]
      rfl
  · intro completed c hc hp
    rw [checkEligibility, mem_sortByCode, List.mem_filter]
    refine ⟨hc, ?_⟩
    rw [hp]
    rfl

/-- C6 witness: on `stE` with nothing completed, the prerequisite-free E1 is
eligible and E2 (requiring E1) is not; E1 stays eligible for an arbitrary
completed set. -/
theorem c6_witness :
    (⟨EX "E1", "E One", "E1"⟩ : Course) ∈ checkEligibility stE [] ∧
    (⟨EX "E2", "E Two", "E2"⟩ : Course) ∉ checkEligibility stE [] ∧
    (⟨EX "E1", "E One", "E1"⟩ : Course) ∈ checkEligibility stE ["X9"] := by
  refine ⟨?_, ?_, ?_⟩
  · exact ((c6_eligible_zero_prereq stE).1 _).mpr ⟨by decide, by rfl⟩
  · intro hmem
    have := ((c6_eligible_zero_prereq stE).1 _).mp hmem
    revert this
    decide
  · exact (c6_eligible_zero_prereq stE).2 ["X9"] _ (by decide) (by rfl)

/-! ## C4 -/

theorem mem_ite_nil {α : Type} {c : Prop} [Decidable c] {l : List α} {a : α} :
    a ∈ (if c then l else []) ↔ c ∧ a ∈ l := by
  split <;> simp_all

theorem flatMap_const_nil {α β : Type} (l : List α) :
    l.flatMap (fun _ => ([] : List β)) = [] := by
  induction l with
  | nil => rfl
  | cons a as ih => simp [ih]

theorem flatMap_congr {α β : Type} {l : List α} {f g : α → List β}
    (h : ∀ a ∈ l, f a = g a) : l.flatMap f = l.flatMap g := by
  induction l with
  | nil => rfl
  | cons a as ih =>
    rw [List.flatMap_cons, List.flatMap_cons, h a (List.mem_cons_self a as),
      ih (fun x hx => h x (List.mem_cons_of_mem _ hx))]

theorem mem_rowsFor {s : Store} {c1 c2 sem : String} {r : ConflictRow} :
    r ∈ rowsFor s c1 c2 sem ↔
      ∃ n1 ∈ courseNames s (EX c1), ∃ n2 ∈ courseNames s (EX c2),
      ∃ o1 ∈ offeringsIn s (EX c1) sem, ∃ o2 ∈ offeringsIn s (EX c2) sem,
      ∃ k1 ∈ o1.comps, ∃ k2 ∈ o2.comps,
        overlapB k1.slot k2.slot = true ∧
        ∃ d ∈ sharedDays k1.slot k2.slot,
          ({ course1 := EX c1, course1Name := n1, course2 := EX c2,
             course2Name := n2, semester := sem, comp1 := k1.uri,
             comp2 := k2.uri, day := d,
             start1 := k1.slot.startM, end1 := k1.slot.endM,
             start2 := k2.slot.startM, end2 := k2.slot.endM } : ConflictRow) = r := by
  simp only [rowsFor, List.mem_flatMap, mem_ite_nil, List.mem_map]

theorem mem_conflictRows {s : Store} {ids : List String} {sem : String}
    {r : ConflictRow} :
    r ∈ conflictRows s ids sem ↔
      ∃ a ∈ ids, ∃ b ∈ ids, strLt (EX a) (EX b) = true ∧ r ∈ rowsFor s a b sem := by
  simp only [conflictRows, List.mem_flatMap, mem_ite_nil]

/-- URIs name components uniquely (as in any RDF graph: the triples hanging
off one component URI describe one component). -/
def CompKeyed (s : Store) : Prop :=
  ∀ o₁ ∈ s.offerings, ∀ o₂ ∈ s.offerings, ∀ k₁ ∈ o₁.comps, ∀ k₂ ∈ o₂.comps,
    k₁.uri = k₂.uri → k₁ = k₂

instance : DecidablePred CompKeyed := by
  intro s
  unfold CompKeyed
  infer_instance

/-- A conflict row for the ordered pair, built from concrete joins. -/
theorem rowFor_mem (s : Store) (ids : List String) (sem c1 c2 n1 n2 : String)
    (o1 o2 : Offering) (k1 k2 : Component) (d : String)
    (h1 : c1 ∈ ids) (h2 : c2 ∈ ids) (hlt : strLt (EX c1) (EX c2) = true)
    (hn1 : n1 ∈ courseNames s (EX c1)) (hn2 : n2 ∈ courseNames s (EX c2))
    (ho1 : o1 ∈ offeringsIn s (EX c1) sem) (ho2 : o2 ∈ offeringsIn s (EX c2) sem)
    (hk1 : k1 ∈ o1.comps) (hk2 : k2 ∈ o2.comps)
    (hov : overlapB k1.slot k2.slot = true) (hd : d ∈ sharedDays k1.slot k2.slot) :
    ∃ r ∈ conflictRows s ids sem, r.comp1 = k1.uri ∧ r.comp2 = k2.uri := by
  refine ⟨_, mem_conflictRows.mpr ⟨c1, h1, c2, h2, hlt, mem_rowsFor.mpr
    ⟨n1, hn1, n2, hn2, o1, ho1, o2, ho2, k1, hk1, k2, hk2, hov, d, hd, rfl⟩⟩,
    rfl, rfl⟩

/-- Query-level characterization: a row of `check_time_conflicts_query`
mentioning the two components exists iff their slots share a weekday and
their half-open intervals overlap; in particular disjoint day sets and
touching intervals (`end1 = start2`) produce no row.  The query therefore
implements exactly the claimed overlap rule — but `detect_conflicts` crashes
while turning any such row into a report (see the C4 theorem below). -/
theorem conflictRow_report_iff (s : Store) (ids : List String) (sem : String)
    (c1 c2 : String) (o1 o2 : Offering) (k1 k2 : Component)
    (hwf : CompKeyed s)
    (h1 : c1 ∈ ids) (h2 : c2 ∈ ids) (hne : c1 ≠ c2)
    (hn1 : courseNames s (EX c1) ≠ []) (hn2 : courseNames s (EX c2) ≠ [])
    (ho1 : o1 ∈ s.offerings) (h1c : o1.course = EX c1) (h1s : o1.semester = sem)
    (ho2 : o2 ∈ s.offerings) (h2c : o2.course = EX c2) (h2s : o2.semester = sem)
    (hk1 : k1 ∈ o1.comps) (hk2 : k2 ∈ o2.comps) :
    (∃ r ∈ conflictRows s ids sem,
        (r.comp1 = k1.uri ∧ r.comp2 = k2.uri) ∨
        (r.comp1 = k2.uri ∧ r.comp2 = k1.uri)) ↔
      ((∃ d, d ∈ k1.slot.days ∧ d ∈ k2.slot.days) ∧
        k1.slot.startM < k2.slot.endM ∧ k2.slot.startM < k1.slot.endM) := by
  have ho1' : o1 ∈ offeringsIn s (EX c1) sem :=
    List.mem_filter.mpr ⟨ho1, by simp [h1c, h1s]⟩
  have ho2' : o2 ∈ offeringsIn s (EX c2) sem :=
    List.mem_filter.mpr ⟨ho2, by simp [h2c, h2s]⟩
  constructor
  · rintro ⟨r, hr, hor⟩
    obtain ⟨a, ha, b, hb, hlt, hrf⟩ := mem_conflictRows.mp hr
    rw [mem_rowsFor] at hrf
    obtain ⟨n1, hn1m, n2, hn2m, p1, hp1, p2, hp2, q1, hq1, q2, hq2, hov, d, hd, hreq⟩ := hrf
    subst hreq
    have hp1' : p1 ∈ s.offerings := (List.mem_filter.mp hp1).1
    have hp2' : p2 ∈ s.offerings := (List.mem_filter.mp hp2).1
    have hd1 : d ∈ q1.slot.days := (List.mem_filter.mp hd).1
    have hd2 : d ∈ q2.slot.days := by
      have h := (List.mem_filter.mp hd).2
      simpa [List.elem_iff] using h
    simp only [overlapB, Bool.and_eq_true, decide_eq_true_eq] at hov
    rcases hor with ⟨hc1, hc2⟩ | ⟨hc1, hc2⟩
    · have e1 : q1 = k1 := hwf p1 hp1' o1 ho1 q1 hq1 k1 hk1 hc1
      have e2 : q2 = k2 := hwf p2 hp2' o2 ho2 q2 hq2 k2 hk2 hc2
      subst e1; subst e2
      exact ⟨⟨d, hd1, hd2⟩, hov.1, hov.2⟩
    · have e1 : q1 = k2 := hwf p1 hp1' o2 ho2 q1 hq1 k2 hk2 hc1
      have e2 : q2 = k1 := hwf p2 hp2' o1 ho1 q2 hq2 k1 hk1 hc2
      subst e1; subst e2
      exact ⟨⟨d, hd2, hd1⟩, hov.2, hov.1⟩
  · rintro ⟨⟨d, hd1, hd2⟩, hov1, hov2⟩
    obtain ⟨n1, hn1m⟩ := List.exists_mem_of_ne_nil _ hn1
    obtain ⟨n2, hn2m⟩ := List.exists_mem_of_ne_nil _ hn2
    have hEX : EX c1 ≠ EX c2 := fun h => hne (EX_inj h)
    rcases strLt_total hEX with hlt | hgt
    · obtain ⟨r, hr, hcc⟩ := rowFor_mem s ids sem c1 c2 n1 n2 o1 o2 k1 k2 d
        h1 h2 hlt hn1m hn2m ho1' ho2' hk1 hk2
        (by simp [overlapB]; exact ⟨hov1, hov2⟩)
        (by simp [sharedDays, List.mem_filter, List.elem_iff]; exact ⟨hd1, hd2⟩)
      exact ⟨r, hr, Or.inl hcc⟩
    · obtain ⟨r, hr, hcc⟩ := rowFor_mem s ids sem c2 c1 n2 n1 o2 o1 k2 k1 d
        h2 h1 hgt hn2m hn1m ho2' ho1' hk2 hk1
        (by simp [overlapB]; exact ⟨hov2, hov1⟩)
        (by simp [sharedDays, List.mem_filter, List.elem_iff]; exact ⟨hd2, hd1⟩)
      exact ⟨r, hr, Or.inr hcc⟩

/-- Instance of the query-level characterization: on `stC` the overlapping
Monday lectures of CA and CB yield a conflict row. -/
theorem conflictRow_report_iff_inst :
    ∃ r ∈ conflictRows stC ["CA", "CB"] "2025 Fall",
      (r.comp1 = (EX "CA_LEC_0") ∧ r.comp2 = (EX "CB_LEC_0")) ∨
      (r.comp1 = (EX "CB_LEC_0") ∧ r.comp2 = (EX "CA_LEC_0")) :=
  (conflictRow_report_iff stC ["CA", "CB"] "2025 Fall" "CA" "CB"
    ⟨EX "CA", "2025 Fall", [⟨EX "CA_LEC_0", ⟨[EX "Monday"], 540, 660⟩⟩]⟩
    ⟨EX "CB", "2025 Fall", [⟨EX "CB_LEC_0", ⟨[EX "Monday"], 600, 720⟩⟩]⟩
    ⟨EX "CA_LEC_0", ⟨[EX "Monday"], 540, 660⟩⟩
    ⟨EX "CB_LEC_0", ⟨[EX "Monday"], 600, 720⟩⟩
    (by decide) (by decide) (by decide) (by decide) (by decide) (by decide)
    (by decide) (by rfl) (by rfl) (by decide) (by rfl) (by rfl)
    (by decide) (by decide)).mpr
    ⟨⟨EX "Monday", by decide, by decide⟩, by decide, by decide⟩

/-- C4: the conflict query returns exactly the claimed overlap rows, but the
program never *reports* a conflict.  On the concrete store with Monday
lectures 9:00-11:00 and 10:00-12:00 the query yields the conflict row, and
`detect_conflicts` raises `AttributeError` while building its first entry
(attribute access on the plain dict rows `execute_query` returns) instead of
reporting it; with no overlapping rows the loop is skipped and the empty
no-conflict structure is returned, so only the crash side diverges from the
claim. -/
theorem c4_attr_error_bug :
    conflictRows stC ["CA", "CB"] "2025 Fall" =
      [{ course1 := EX "CA", course1Name := "Course A", course2 := EX "CB",
         course2Name := "Course B", semester := "2025 Fall",
         comp1 := EX "CA_LEC_0", comp2 := EX "CB_LEC_0", day := EX "Monday",
         start1 := 540, end1 := 660, start2 := 600, end2 := 720 }] ∧
    detectConflicts stC ["CA", "CB"] "2025 Fall" = .error attrErrMsg ∧
    detectConflicts stS ["CSA", "CSB"] "2025 Fall" =
      .ok { conflicts := [],
            message := some "No schedule conflicts detected for the selected semester." } :=
  ⟨by rfl, by rfl, by rfl⟩

/-! ## C5 -/

theorem offeringsIn_eq_nil {s : Store} {b sem : String}
    (hb : ∀ o ∈ s.offerings, o.course = EX b → o.semester ≠ sem) :
    offeringsIn s (EX b) sem = [] := by
  rw [offeringsIn, List.filter_eq_nil_iff]
  intro o ho
  simp only [Bool.and_eq_true, beq_iff_eq, not_and]
  exact fun hc => hb o ho hc

theorem rowsFor_right_nil {s : Store} {a b sem : String}
    (h : offeringsIn s (EX b) sem = []) : rowsFor s a b sem = [] := by
  simp [rowsFor, h, flatMap_const_nil]

theorem rowsFor_left_nil {s : Store} {a b sem : String}
    (h : offeringsIn s (EX a) sem = []) : rowsFor s a b sem = [] := by
  simp [rowsFor, h, flatMap_const_nil]

/-- C5 amended: a course with a record but no offering in the requested
semester is silently excluded from conflict checking — appending it to the
id list changes neither the conflict rows nor the `detect_conflicts`
outcome, so the other courses' result (including whether the entry-building
`AttributeError` fires at all) is exactly what it was without it; it is NOT
reported separately as lacking schedule data (see the counterexample, whose
concrete run completes without error). -/
theorem c5_amended_missing_offering_excluded (s : Store) (ids : List String)
    (sem b : String)
    (hb : ∀ o ∈ s.offerings, o.course = EX b → o.semester ≠ sem) :
    conflictRows s (ids ++ [b]) sem = conflictRows s ids sem ∧
    detectConflicts s (ids ++ [b]) sem = detectConflicts s ids sem := by
  have hnil : offeringsIn s (EX b) sem = [] := offeringsIn_eq_nil hb
  have hrows : conflictRows s (ids ++ [b]) sem = conflictRows s ids sem := by
    have hinner : ∀ a : String,
        (ids ++ [b]).flatMap
            (fun c => if strLt (EX a) (EX c) then rowsFor s a c sem else []) =
          ids.flatMap
            (fun c => if strLt (EX a) (EX c) then rowsFor s a c sem else []) := by
      intro a
      rw [List.flatMap_append]
      have hone : [b].flatMap
          (fun c => if strLt (EX a) (EX c) then rowsFor s a c sem else []) = [] := by
        simp [rowsFor_right_nil hnil]
      rw [hone, List.append_nil]
    rw [conflictRows, conflictRows, List.flatMap_append]
    have houter : [b].flatMap (fun a => (ids ++ [b]).flatMap
        (fun c => if strLt (EX a) (EX c) then rowsFor s a c sem else [])) = [] := by
      rw [List.flatMap_cons, List.flatMap_nil, List.append_nil, hinner b]
      have : ∀ c ∈ ids,
          (if strLt (EX b) (EX c) then rowsFor s b c sem else []) = ([] : List ConflictRow) := by
        intro c _
        rw [rowsFor_left_nil hnil]
        exact ite_self []
      rw [flatMap_congr this, flatMap_const_nil]
    rw [houter, List.append_nil]
    exact flatMap_congr (fun a _ => hinner a)
  refine ⟨hrows, ?_⟩
  simp only [detectConflicts]
  rw [hrows]

/-- The output of `explain_conflicts` on `stS` for 2025 Fall: CSB (no 2025
Fall offering) is listed in the intro and then treated as conflict-free; no
missing-schedule-data notice appears. -/
def c5Output : String :=
  "You asked to check schedule conflicts for the following courses in semester **2025 Fall**:\n" ++
  "- CSA : Course SA\n- CSB : Course SB\n" ++
  "Good news! There are **no schedule conflicts** among these courses."

set_option maxRecDepth 8000 in
/-- C5 counterexample: CSB has a course record but no 2025 Fall offering;
`explain_conflicts` neither reports it separately as lacking schedule data
(no "no schedule data" text and no "We don't have schedule information"
early return) nor crashes — it simply reports no conflicts. -/
theorem c5_counterexample :
    explainConflicts stS ["CSA", "CSB"] "2025 Fall" = .ok c5Output ∧
    strMentions c5Output "no schedule data" = false ∧
    strMentions c5Output "We don't have schedule information" = false ∧
    offeringsIn stS (EX "CSB") "2025 Fall" = [] ∧
    conflictRows stS ["CSA", "CSB"] "2025 Fall" = [] :=
  ⟨by rfl, by rfl, by rfl, by rfl, by rfl⟩

/-- C5 witness: the exclusion theorem instantiated on `stS`. -/
theorem c5_witness :
    conflictRows stS (["CSA"] ++ ["CSB"]) "2025 Fall" =
      conflictRows stS ["CSA"] "2025 Fall" ∧
    detectConflicts stS (["CSA"] ++ ["CSB"]) "2025 Fall" =
      detectConflicts stS ["CSA"] "2025 Fall" :=
  c5_amended_missing_offering_excluded stS ["CSA"] "2025 Fall" "CSB" (by decide)

/-! ## C8 -/

/-- C8: a failed query surfaces as the single-row `error` outcome, which is
distinct from the empty NotFound outcome, while rows of successful queries
never bind the `error` variable — callers can always tell "no data" apart
from "could not ask". -/
theorem c8_backend_error_distinct (inst : Option Store) (q : KGQuery) :
    (QueryFails inst q →
      ∃ m, queryKnowledgeGraph inst q = [[("error", m)]] ∧
        queryKnowledgeGraph inst q ≠ []) ∧
    (¬ QueryFails inst q →
      ∀ row ∈ queryKnowledgeGraph inst q, ∀ v, ("error", v) ∉ row) := by
  constructor
  · intro hf
    cases inst with
    | none =>
      exact ⟨"Knowledge graph not initialized", rfl, by simp [queryKnowledgeGraph]⟩
    | some s =>
      obtain ⟨m, hm⟩ := hf
      refine ⟨m, ?_, ?_⟩
      · simp [queryKnowledgeGraph, executeQuery, hm]
      · simp [queryKnowledgeGraph, executeQuery, hm]
  · intro hnf row hrow v hv
    cases inst with
    | none => exact hnf trivial
    | some s =>
      cases q with
      | malformed t => exact hnf ⟨parseErrorMsg t, rfl⟩
      | details uri =>
        simp only [queryKnowledgeGraph, executeQuery, evalQuery, List.mem_map] at hrow
        obtain ⟨p, _, hp⟩ := hrow
        subst hp
        simp at hv
      | prereqs code =>
        simp only [queryKnowledgeGraph, executeQuery, evalQuery, List.mem_map] at hrow
        obtain ⟨p, _, hp⟩ := hrow
        subst hp
        cases hsnd : p.2 with
        | none => simp [hsnd] at hv
        | some d => simp [hsnd] at hv
      | eligibility comp =>
        simp only [queryKnowledgeGraph, executeQuery, evalQuery, List.mem_map] at hrow
        obtain ⟨p, _, hp⟩ := hrow
        subst hp
        simp at hv
      | conflicts ids sem =>
        simp only [queryKnowledgeGraph, executeQuery, evalQuery, List.mem_map] at hrow
        obtain ⟨p, _, hp⟩ := hrow
        subst hp
        simp at hv

/-- C8 witness: the uninitialized accessor yields the distinguishable error
outcome for a concrete query. -/
theorem c8_witness :
    ∃ m, queryKnowledgeGraph none (.details (EX "Q")) = [[("error", m)]] ∧
      queryKnowledgeGraph none (.details (EX "Q")) ≠ [] :=
  (c8_backend_error_distinct none (.details (EX "Q"))).1 trivial
